import Mathlib

/-!
Shallow embedding of the EV-Charging-Points-in-Central-London pipeline.

The repository contains four variant scripts of one ETL pipeline:
`Cloud_Functions_Option_01/main.py`, `Cloud_Functions_Option_02/main.py`,
`data_extracting_cleaning_OCM.py`, `data_extracting_OCM_GPA.py` /
`data_cleaning_OCM_GPA.py`.  The definitions below translate the pure
data-transformation logic of those scripts; Python floats are modelled by
`ℚ` (all operations performed on powers are order comparisons, min and
max, which agree with the rational model on the inputs in question),
Python `None`/absent/NaN values by `Option`, and pandas dataframes by
lists of records.
-/

namespace EVCharging

/-- Charging capability tier, the three string labels produced by
`assign_charging_type` ("Slow" / "Fast" / "Rapid"). -/
inductive Tier where
  | Slow : Tier
  | Fast : Tier
  | Rapid : Tier
deriving DecidableEq, Repr

/-- Numeric rank of a tier, used to state monotonicity (Slow < Fast < Rapid). -/
def Tier.rank : Tier → Nat
  | .Slow => 0
  | .Fast => 1
  | .Rapid => 2

/-- Per-reading classification, the loop body of `assign_charging_type`
(`Cloud_Functions_Option_01/main.py` lines 47-56, identically in
`data_extracting_cleaning_OCM.py` lines 89-98 and the other variants):
`if p < 7: Slow elif 7 <= p <= 22: Fast else: Rapid`. -/
def tier (p : ℚ) : Tier :=
  if p < 7 then .Slow
  else if 7 ≤ p ∧ p ≤ 22 then .Fast
  else .Rapid

/-- The function `assign_charging_type(power_list)`: classifies each power
reading in order (the Python loop appends `tier p` for each `p`). -/
def assign_charging_type (power_list : List ℚ) : List Tier :=
  power_list.map tier

/-- The function `max_charging_type(types)`
(`Cloud_Functions_Option_01/main.py` lines 59-66 and identically in the
other variants): returns "Rapid" if present, else "Fast" if present, else
"Slow" if present, else `np.nan` (modelled as `none`). -/
def max_charging_type (types : List Tier) : Option Tier :=
  if Tier.Rapid ∈ types then some .Rapid
  else if Tier.Fast ∈ types then some .Fast
  else if Tier.Slow ∈ types then some .Slow
  else none

/-- One raw connector descriptor from the OCM `Connections` array:
`PowerKW` (optional float), `ConnectionTypeID` and `CurrentTypeID`
(optional integers). -/
structure Connector where
  powerKW : Option ℚ
  connectionTypeID : Option ℤ
  currentTypeID : Option ℤ
deriving DecidableEq, Repr

/-- The list comprehension
`[c.get("PowerKW") for c in conn_list if c.get("PowerKW") is not None]`. -/
def knownPowers (conn_list : List Connector) : List ℚ :=
  conn_list.filterMap (·.powerKW)

/-- Result record of `extract_connections`
(`Cloud_Functions_Option_02/main.py` lines 123-146).  The availability
flags are the literal "Yes"/"No" strings of the source.  `none` models a
Python `None` that pandas later renders as NaN. -/
structure ConnInfo where
  numberOfConnectors : Nat
  powerList : List ℚ
  minPowerKW : Option ℚ
  maxPowerKW : Option ℚ
  chargingTypeList : List Tier
  maxChargingType : Option Tier
  rapidChargeAvailable : String
  fastChargeAvailable : String
  slowChargeAvailable : String
  connectionTypes : List ℤ
  currentTypes : List ℤ
deriving DecidableEq, Repr

/-- Body of `extract_connections` for an input that IS a list
(`Cloud_Functions_Option_02/main.py` lines 128-146).  Python
`min(powers) if powers else None` is `List.min?` (and likewise `max`). -/
def extract_connections_list (conn_list : List Connector) : ConnInfo :=
  let powers := knownPowers conn_list
  let charging_type_list := if powers ≠ [] then assign_charging_type powers else []
  { numberOfConnectors := conn_list.length
    powerList := powers
    minPowerKW := powers.min?
    maxPowerKW := powers.max?
    chargingTypeList := charging_type_list
    maxChargingType := max_charging_type charging_type_list
    rapidChargeAvailable := if Tier.Rapid ∈ charging_type_list then "Yes" else "No"
    fastChargeAvailable := if Tier.Fast ∈ charging_type_list then "Yes" else "No"
    slowChargeAvailable := if Tier.Slow ∈ charging_type_list then "Yes" else "No"
    connectionTypes := conn_list.filterMap (·.connectionTypeID)
    currentTypes := conn_list.filterMap (·.currentTypeID) }

/-- The function `extract_connections(conn_list)`: a non-list input
(`none`) returns the empty dict `{}`, whose missing fields later surface
as NaN in every derived column; a list input is processed by
`extract_connections_list`. -/
def extract_connections (conn_list : Option (List Connector)) : Option ConnInfo :=
  conn_list.map extract_connections_list

/-- A canonical charger record reduced to the fields relevant for
deduplication and incremental sync: the `place_id` key plus an abstract
payload standing for all remaining columns (two rows with the same key
may still differ in the payload). -/
structure ChargerRecord where
  placeId : String
  payload : Nat
deriving DecidableEq, Repr

/-- Recursive worker for pandas `df.drop_duplicates(subset=["place_id"])`
with the default `keep="first"`: a row whose key was already seen is
dropped, otherwise it is kept and its key recorded. -/
def dropDupGo (seen : List String) : List ChargerRecord → List ChargerRecord
  | [] => []
  | r :: rs =>
    if r.placeId ∈ seen then dropDupGo seen rs
    else r :: dropDupGo (r.placeId :: seen) rs

/-- The intra-batch deduplication step of `clean_ev_charger_data`
(`Cloud_Functions_Option_01/main.py` line 226):
`df.drop_duplicates(subset=["place_id"], inplace=True)` — pandas keeps
the FIRST occurrence of each key (`keep="first"` is the default). -/
def drop_duplicates_by_place_id (batch : List ChargerRecord) : List ChargerRecord :=
  dropDupGo [] batch

/-- First record in batch order carrying the given key. -/
def firstWithKey (batch : List ChargerRecord) (k : String) : Option ChargerRecord :=
  batch.find? (fun r => r.placeId = k)

/-- Last record in batch order carrying the given key. -/
def lastWithKey (batch : List ChargerRecord) (k : String) : Option ChargerRecord :=
  batch.reverse.find? (fun r => r.placeId = k)

/-- Outcome of `load_to_bigquery_incremental`
(`Cloud_Functions_Option_01/main.py` lines 282-314): either the table did
not exist and the whole batch is the initial write, or nothing new
remained (the function prints "No new records to append." and returns
early without any load job), or the net-new rows are appended. -/
inductive SyncOutcome where
  | created : List ChargerRecord → SyncOutcome
  | noNewData : SyncOutcome
  | appended : List ChargerRecord → SyncOutcome
deriving DecidableEq, Repr

/-- The function `load_to_bigquery_incremental(df)`: `existingKeys = none`
models `NotFound` (table absent, everything written, table created);
otherwise `df_new = df[~df["Place_Id"].isin(existing_ids)]`, and an empty
`df_new` short-circuits to the "No new data" return before any load job
is started. -/
def load_to_bigquery_incremental (df : List ChargerRecord)
    (existingKeys : Option (List String)) : SyncOutcome :=
  match existingKeys with
  | none => .created df
  | some ids =>
    let df_new := df.filter (fun r => r.placeId ∉ ids)
    if df_new = [] then .noNewData else .appended df_new

/-- Rows actually written to the destination by a sync outcome. -/
def SyncOutcome.loadedRows : SyncOutcome → List ChargerRecord
  | .created rows => rows
  | .noNewData => []
  | .appended rows => rows

/-- Outcome of one HTTP attempt inside `safe_get`
(`Cloud_Functions_Option_02/main.py` lines 28-52): a successful 2xx
response with a body, a 429 response with an optional integer
`Retry-After` header, or any other request failure (connection error or
a non-2xx status raised by `raise_for_status`, both of which land in the
`except requests.exceptions.RequestException` branch). -/
inductive FetchResp where
  | ok : Nat → FetchResp
  | http429 : Option Nat → FetchResp
  | netErr : FetchResp
deriving DecidableEq, Repr

/-- A response that does not terminate the retry loop. -/
def FetchResp.isFail : FetchResp → Bool
  | .ok _ => false
  | .http429 _ => true
  | .netErr => true

/-- Trace of one `safe_get` run: the returned value (`none` models the
Python `return None` after "Max retries exceeded"), the number of HTTP
requests issued, and the sleep durations performed after each failed
attempt, in order. -/
structure FetchTrace where
  result : Option Nat
  attempts : Nat
  waits : List Nat
deriving DecidableEq, Repr

/-- Worker for `safe_get`: `remaining` is `max_retries - retry`, so the
loop guard `while retry < max_retries` is `remaining > 0`; `retry` is the
attempt index.  On 429 the wait is `int(retry_after) if retry_after else
2 ** retry`; on other failures it is `2 ** retry`; both increment `retry`
and continue.  The `responses` oracle gives the outcome of the attempt
with each index. -/
def safeGetGo (responses : Nat → FetchResp) : Nat → Nat → FetchTrace
  | 0, _ => ⟨none, 0, []⟩
  | remaining + 1, retry =>
    match responses retry with
    | .ok v => ⟨some v, 1, []⟩
    | .http429 retryAfter =>
      let wait := retryAfter.getD (2 ^ retry)
      let t := safeGetGo responses remaining (retry + 1)
      ⟨t.result, t.attempts + 1, wait :: t.waits⟩
    | .netErr =>
      let wait := 2 ^ retry
      let t := safeGetGo responses remaining (retry + 1)
      ⟨t.result, t.attempts + 1, wait :: t.waits⟩

/-- The function `safe_get(url, params, max_retries=5)` as a trace over a
response oracle. -/
def safe_get (responses : Nat → FetchResp) : FetchTrace :=
  safeGetGo responses 5 0

/-- State threaded through `run_extraction`
(`Cloud_Functions_Option_01/main.py` lines 176-220): the `seen` set of
accepted place ids, the log of place ids passed to
`fetch_place_details` (in call order, with repetitions), and the place
ids of the records appended so far. -/
structure ExtractState where
  seen : List String
  detailsFetched : List String
  recordIds : List String
deriving DecidableEq, Repr

/-- Processing of one nearby-search result `r` inside `run_extraction`
(lines 187-217): `pid = r.get("place_id")`; skip when absent, empty or
already in `seen`; otherwise `fetch_place_details(pid)` is called, and
only when `is_charger_place` accepts the details is `pid` added to `seen`
and a record appended.  `isCharger` is the oracle for
`is_charger_place(fetch_place_details(pid))`. -/
def processNearbyResult (isCharger : String → Bool) (st : ExtractState)
    (pidOpt : Option String) : ExtractState :=
  match pidOpt with
  | none => st
  | some pid =>
    if pid = "" ∨ pid ∈ st.seen then st
    else
      let st1 : ExtractState := { st with detailsFetched := st.detailsFetched ++ [pid] }
      if isCharger pid then
        { st1 with seen := pid :: st1.seen, recordIds := st1.recordIds ++ [pid] }
      else st1

/-- The grid sweep of `run_extraction`: the outer loops over `lat_points`
× `lng_points` are flattened into a list of anchors, each anchor carrying
the `place_id` fields of its `fetch_nearby` results in order. -/
def run_extraction (isCharger : String → Bool)
    (anchors : List (List (Option String))) : ExtractState :=
  anchors.foldl (fun st results => results.foldl (processNearbyResult isCharger) st)
    ⟨[], [], []⟩

/-- One OCM POI as consumed by the catalog variants
(`data_extracting_cleaning_OCM.py`, `Cloud_Functions_Option_02/main.py`):
the nested `AddressInfo` latitude/longitude (absent when the JSON lacks
them) and the `Connections` value (`none` when it is not a list, in which
case `extract_connections` returns `{}`). -/
structure CatalogPOI where
  latitude : Option ℚ
  longitude : Option ℚ
  connections : Option (List Connector)
deriving DecidableEq, Repr

/-- The columns of one row of `df_final` that take part in the `dropna`
of `data_extracting_cleaning_OCM.py` lines 174-175 (identically
`Cloud_Functions_Option_02/main.py` line 253), together with the derived
`Max_Charging_Type`.  A `none` field is a NaN cell. -/
structure CatalogRow where
  numberOfConnectors : Option Nat
  minPowerKW : Option ℚ
  maxPowerKW : Option ℚ
  maxChargingType : Option Tier
  latitude : Option ℚ
  longitude : Option ℚ
deriving DecidableEq, Repr

/-- Row construction: `extract_connections` applied to the POI's
`Connections` (an empty dict — `none` — leaves every derived column
NaN), combined with the flattened `AddressInfo` coordinates. -/
def mkCatalogRow (poi : CatalogPOI) : CatalogRow :=
  match extract_connections poi.connections with
  | none =>
    { numberOfConnectors := none, minPowerKW := none, maxPowerKW := none
      maxChargingType := none, latitude := poi.latitude, longitude := poi.longitude }
  | some info =>
    { numberOfConnectors := some info.numberOfConnectors
      minPowerKW := info.minPowerKW
      maxPowerKW := info.maxPowerKW
      maxChargingType := info.maxChargingType
      latitude := poi.latitude, longitude := poi.longitude }

/-- The `dropna(subset=["Number_of_Connectors", "Min_Power_kW",
"Max_Power_kW", "Latitude", "Longitude"], how="any")` predicate: the row
survives iff all five columns are non-null. -/
def catalogRowComplete (r : CatalogRow) : Bool :=
  r.numberOfConnectors.isSome && r.minPowerKW.isSome && r.maxPowerKW.isSome
    && r.latitude.isSome && r.longitude.isSome

/-- The final persisted frame of the catalog variants: each POI becomes a
row and the `dropna` filter removes every incomplete row. -/
def df_final (pois : List CatalogPOI) : List CatalogRow :=
  (pois.map mkCatalogRow).filter catalogRowComplete

/-- One entry of the `power_values` list built by `fetch_ocm_details`
(`Cloud_Functions_Option_01/main.py` lines 159-167): either the rendered
string `f"{float(power_kw):.1f} kW"` carrying the value, or the literal
string "Power Unknown". -/
inductive PowerEntry where
  | known : ℚ → PowerEntry
  | unknown : PowerEntry
deriving DecidableEq, Repr

/-- Python truthiness of the `PowerKW` field: `if power_kw:` is False for
`None` and for a zero value. -/
def pyTruthy (p : Option ℚ) : Bool :=
  match p with
  | none => false
  | some v => v ≠ 0

/-- The branch `if power_kw: power_values.append(f"{float(power_kw):.1f}
kW") else: power_values.append("Power Unknown")` for one connector. -/
def renderPowerEntry (p : Option ℚ) : PowerEntry :=
  match p with
  | none => .unknown
  | some v => if v ≠ 0 then .known v else .unknown

/-- The `power_values` list of `fetch_ocm_details` over a connection
list (the `"; ".join` / `str.split("; ")` round trip between this
producer and the cleaner is lossless for these entries, so the pipeline
is modelled at the list level). -/
def ocm_power_values (conns : List Connector) : List PowerEntry :=
  conns.map (fun c => renderPowerEntry c.powerKW)

/-- The helper `convert_power` of `clean_ev_charger_data`
(`Cloud_Functions_Option_01/main.py` lines 237-244): keeps exactly the
entries containing the substring "kW" — i.e. the rendered known powers;
"Power Unknown" contains no "kW" and is discarded. -/
def convert_power (entries : List PowerEntry) : List ℚ :=
  entries.filterMap (fun e => match e with | .known v => some v | .unknown => none)

/-! ## Theorems -/

/-- Case analysis of `tier`: every power falls in exactly one band. -/
theorem tier_cases (p : ℚ) :
    (p < 7 ∧ tier p = .Slow) ∨ (7 ≤ p ∧ p ≤ 22 ∧ tier p = .Fast) ∨
      (22 < p ∧ tier p = .Rapid) := by
  unfold tier
  by_cases h1 : p < 7
  · exact Or.inl ⟨h1, by simp [h1]⟩
  · by_cases h2 : 7 ≤ p ∧ p ≤ 22
    · exact Or.inr (Or.inl ⟨h2.1, h2.2, by simp [h1, h2]⟩)
    · refine Or.inr (Or.inr ⟨?_, by simp [h1, h2]⟩)
      push_neg at h1 h2
      exact lt_of_not_le fun hle => absurd (h2 h1) (not_lt.mpr hle)

/-- C1: the per-connector tier function `assign_charging_type` maps a
power `p` to Slow exactly when `p < 7`, to Fast exactly when
`7 ≤ p ≤ 22`, and to Rapid exactly when `p > 22`; in particular the
bands partition with no gap or overlap at the boundaries
(`tier 7 = Fast`, `tier 22 = Fast`, `tier 6.9999 = Slow`,
`tier 22.0001 = Rapid`) and `tier` is monotone in `p`. -/
theorem tier_bands_partition_monotone :
    (∀ p : ℚ, (tier p = .Slow ↔ p < 7) ∧ (tier p = .Fast ↔ 7 ≤ p ∧ p ≤ 22) ∧
      (tier p = .Rapid ↔ 22 < p)) ∧
    tier 7 = .Fast ∧ tier 22 = .Fast ∧
    tier (69999 / 10000 : ℚ) = .Slow ∧ tier (220001 / 10000 : ℚ) = .Rapid ∧
    (∀ p q : ℚ, p ≤ q → (tier p).rank ≤ (tier q).rank) := by
  refine ⟨fun p => ?_, ?_, ?_, ?_, ?_, fun p q hpq => ?_⟩
  · rcases tier_cases p with ⟨h, ht⟩ | ⟨h1, h2, ht⟩ | ⟨h, ht⟩ <;> rw [ht]
    · exact ⟨iff_of_true rfl h,
        iff_of_false (by decide) (by rintro ⟨a, b⟩; linarith),
        iff_of_false (by decide) (by intro hc; linarith)⟩
    · exact ⟨iff_of_false (by decide) (by intro hc; linarith),
        iff_of_true rfl ⟨h1, h2⟩,
        iff_of_false (by decide) (by intro hc; linarith)⟩
    · exact ⟨iff_of_false (by decide) (by intro hc; linarith),
        iff_of_false (by decide) (by rintro ⟨a, b⟩; linarith),
        iff_of_true rfl h⟩
  · norm_num [tier]
  · norm_num [tier]
  · norm_num [tier]
  · norm_num [tier]
  · rcases tier_cases p with ⟨h, ht⟩ | ⟨h1, h2, ht⟩ | ⟨h, ht⟩ <;>
      rcases tier_cases q with ⟨g, hg⟩ | ⟨g1, g2, hg⟩ | ⟨g, hg⟩ <;>
      rw [ht, hg] <;> simp [Tier.rank] <;> linarith

/-- Concrete instantiation of `tier_bands_partition_monotone`: the band
characterisation at 5 and monotonicity between 5 and 50. -/
theorem tier_bands_partition_monotone_witness :
    (tier 5 = .Slow ↔ (5 : ℚ) < 7) ∧ (tier 5).rank ≤ (tier 50).rank :=
  ⟨(tier_bands_partition_monotone.1 5).1,
   tier_bands_partition_monotone.2.2.2.2.2 5 50 (by norm_num)⟩

/-- C2: `max_charging_type` returns Rapid if any connector tier is
Rapid, else Fast if any is Fast, else Slow if any is Slow, and `none`
(NaN, "Unknown") exactly for the empty tier list; and when no connector
has a known power, `extract_connections` produces an Unknown site tier
and all three availability flags "No". -/
theorem max_charging_type_spec :
    (∀ ts : List Tier,
      (Tier.Rapid ∈ ts → max_charging_type ts = some .Rapid) ∧
      (Tier.Rapid ∉ ts → Tier.Fast ∈ ts → max_charging_type ts = some .Fast) ∧
      (Tier.Rapid ∉ ts → Tier.Fast ∉ ts → Tier.Slow ∈ ts →
        max_charging_type ts = some .Slow) ∧
      (max_charging_type ts = none ↔ ts = [])) ∧
    (∀ conns : List Connector, knownPowers conns = [] →
      (extract_connections_list conns).maxChargingType = none ∧
      (extract_connections_list conns).rapidChargeAvailable = "No" ∧
      (extract_connections_list conns).fastChargeAvailable = "No" ∧
      (extract_connections_list conns).slowChargeAvailable = "No") := by
  constructor
  · intro ts
    refine ⟨fun hr => by simp [max_charging_type, hr],
      fun hnr hf => by simp [max_charging_type, hnr, hf],
      fun hnr hnf hs => by simp [max_charging_type, hnr, hnf, hs], ?_⟩
    constructor
    · intro hnone
      by_contra hne
      obtain ⟨t, ts2, rfl⟩ := List.exists_cons_of_ne_nil hne
      cases t <;> simp [max_charging_type] at hnone <;> split_ifs at hnone
    · rintro rfl
      simp [max_charging_type]
  · intro conns h
    simp [extract_connections_list, h, max_charging_type]

/-- Concrete instantiation of `max_charging_type_spec`: a Slow+Rapid
site reports Rapid, and a single connector with no power reading yields
an Unknown tier with every availability flag "No". -/
theorem max_charging_type_spec_witness :
    max_charging_type [Tier.Slow, Tier.Rapid] = some Tier.Rapid ∧
    (extract_connections_list [⟨none, none, none⟩]).maxChargingType = none ∧
    (extract_connections_list [⟨none, none, none⟩]).rapidChargeAvailable = "No" :=
  ⟨(max_charging_type_spec.1 [Tier.Slow, Tier.Rapid]).1 (by decide),
   ((max_charging_type_spec.2 [⟨none, none, none⟩]) rfl).1,
   ((max_charging_type_spec.2 [⟨none, none, none⟩]) rfl).2.1⟩

/-- C8: in `extract_connections`, `min_power_kw ≤ max_power_kw` whenever
both are defined, and both are undefined (`None`, never coerced to 0)
exactly when the known-power list is empty. -/
theorem min_power_le_max_power :
    ∀ conns : List Connector,
      (∀ a b : ℚ, (extract_connections_list conns).minPowerKW = some a →
        (extract_connections_list conns).maxPowerKW = some b → a ≤ b) ∧
      (((extract_connections_list conns).minPowerKW = none ∧
        (extract_connections_list conns).maxPowerKW = none) ↔
        knownPowers conns = []) := by
  intro conns
  constructor
  · intro a b ha hb
    simp only [extract_connections_list] at ha hb
    haveI : Std.Antisymm fun x1 x2 : ℚ => x1 ≤ x2 := ⟨fun h1 h2 => le_antisymm h1 h2⟩
    have hmem : a ∈ knownPowers conns := List.min?_mem (fun x y => min_choice x y) ha
    have hb2 := (List.max?_eq_some_iff le_refl (fun x y => max_choice x y)
      (fun x y z => max_le_iff)).mp hb
    exact hb2.2 a hmem
  · simp only [extract_connections_list]
    constructor
    · intro ⟨ha, _⟩
      exact List.min?_eq_none_iff.mp ha
    · intro h
      exact ⟨by rw [h]; rfl, by rw [h]; rfl⟩

/-- Concrete instantiation of `min_power_le_max_power` on connectors with
powers 30 and 5: min 5 ≤ max 30, and on a power-free connector both
fields are `none`. -/
theorem min_power_le_max_power_witness :
    (5 : ℚ) ≤ 30 ∧
    (extract_connections_list [⟨none, none, none⟩]).minPowerKW = none :=
  ⟨(min_power_le_max_power [⟨some 30, none, none⟩, ⟨some 5, none, none⟩]).1 5 30
      (by decide) (by decide),
   ((min_power_le_max_power [⟨none, none, none⟩]).2.mpr rfl).1⟩

/-- Finding a key in the output of `dropDupGo`: keys already seen are
gone, all other keys resolve to their first occurrence in the input. -/
theorem dropDupGo_find (seen : List String) (l : List ChargerRecord) (k : String) :
    (dropDupGo seen l).find? (fun r => r.placeId = k) =
      if k ∈ seen then none else l.find? (fun r => r.placeId = k) := by
  induction l generalizing seen with
  | nil => by_cases hk : k ∈ seen <;> simp [dropDupGo, hk]
  | cons r rs ih =>
    by_cases hs : r.placeId ∈ seen
    · rw [show dropDupGo seen (r :: rs) = dropDupGo seen rs from by
        simp [dropDupGo, hs], ih]
      by_cases hk : k ∈ seen
      · simp [hk]
      · have hne : ¬(r.placeId = k) := fun h => hk (h ▸ hs)
        simp [hk, List.find?_cons, hne]
    · rw [show dropDupGo seen (r :: rs) = r :: dropDupGo (r.placeId :: seen) rs from by
        simp [dropDupGo, hs]]
      by_cases he : r.placeId = k
      · subst he
        simp [List.find?_cons, hs]
      · rw [List.find?_cons_of_neg _ (by simpa using he), ih]
        by_cases hk : k ∈ seen
        · simp [hk, List.mem_cons]
        · have hne2 : ¬(k = r.placeId) := fun h => he h.symm
          have hkc : ¬(k ∈ r.placeId :: seen) := by
            simp only [List.mem_cons, not_or]
            exact ⟨hne2, hk⟩
          rw [if_neg hkc, if_neg hk, List.find?_cons_of_neg _ (by simpa using he)]

/-- Keys surviving `dropDupGo` are distinct and disjoint from `seen`. -/
theorem dropDupGo_nodup (seen : List String) (l : List ChargerRecord) :
    ((dropDupGo seen l).map ChargerRecord.placeId).Nodup ∧
      ∀ k ∈ (dropDupGo seen l).map ChargerRecord.placeId, k ∉ seen := by
  induction l generalizing seen with
  | nil => simp [dropDupGo]
  | cons r rs ih =>
    by_cases hs : r.placeId ∈ seen
    · simpa [dropDupGo, hs] using ih seen
    · have h2 := ih (r.placeId :: seen)
      refine ⟨?_, ?_⟩
      · simp only [dropDupGo, hs, if_false, List.map_cons, List.nodup_cons]
        exact ⟨fun hmem => (h2.2 _ hmem) (List.mem_cons_self _ _), h2.1⟩
      · intro k hk
        simp only [dropDupGo, hs, if_false, List.map_cons, List.mem_cons] at hk
        rcases hk with rfl | hk
        · exact hs
        · exact fun hkseen => (h2.2 _ hk) (List.mem_cons_of_mem _ hkseen)

/-- Every record surviving `dropDupGo` comes from the input batch. -/
theorem dropDupGo_subset (seen : List String) (l : List ChargerRecord) :
    ∀ r ∈ dropDupGo seen l, r ∈ l := by
  induction l generalizing seen with
  | nil => simp [dropDupGo]
  | cons r rs ih =>
    intro x hx
    by_cases hs : r.placeId ∈ seen
    · simp only [dropDupGo, hs, if_true] at hx
      exact List.mem_cons_of_mem _ (ih seen x hx)
    · simp only [dropDupGo, hs, if_false, List.mem_cons] at hx
      rcases hx with rfl | hx
      · exact List.mem_cons_self _ _
      · exact List.mem_cons_of_mem _ (ih _ x hx)

/-- Counterexample to C3 as stated: on the batch
`[{place_id := "a", payload := 1}, {place_id := "a", payload := 2}]` the
deduplication of `clean_ev_charger_data`
(`drop_duplicates(subset=["place_id"])`, pandas default `keep="first"`)
keeps the FIRST record, so the survivor differs from the last-in-order
record with that key. -/
theorem dedup_keeps_last_counterexample :
    ¬ (firstWithKey
        (drop_duplicates_by_place_id [⟨"a", 1⟩, ⟨"a", 2⟩]) "a" =
       lastWithKey [⟨"a", 1⟩, ⟨"a", 2⟩] "a") := by decide

/-- C3 (amended): intra-batch deduplication removes duplicates by
`place_id` keeping the FIRST-seen record for each key: after
deduplication the surviving record for every key is the first record in
batch order with that key, surviving keys are pairwise distinct, and
every surviving record comes from the batch. -/
theorem dedup_keeps_first_per_key :
    ∀ (batch : List ChargerRecord) (k : String),
      firstWithKey (drop_duplicates_by_place_id batch) k = firstWithKey batch k ∧
      ((drop_duplicates_by_place_id batch).map ChargerRecord.placeId).Nodup ∧
      ∀ r ∈ drop_duplicates_by_place_id batch, r ∈ batch := by
  intro batch k
  refine ⟨?_, (dropDupGo_nodup [] batch).1, dropDupGo_subset [] batch⟩
  unfold firstWithKey drop_duplicates_by_place_id
  rw [dropDupGo_find]
  simp

/-- Concrete instantiation of `dedup_keeps_first_per_key`: the survivor
for key "a" is the first record, and a surviving record is traced back
into the batch. -/
theorem dedup_keeps_first_per_key_witness :
    firstWithKey (drop_duplicates_by_place_id [⟨"a", 1⟩, ⟨"a", 2⟩, ⟨"b", 3⟩]) "a" =
      some ⟨"a", 1⟩ ∧
    (⟨"b", 3⟩ : ChargerRecord) ∈ ([⟨"a", 1⟩, ⟨"a", 2⟩, ⟨"b", 3⟩] : List ChargerRecord) :=
  ⟨by rw [(dedup_keeps_first_per_key [⟨"a", 1⟩, ⟨"a", 2⟩, ⟨"b", 3⟩] "a").1]; decide,
   (dedup_keeps_first_per_key [⟨"a", 1⟩, ⟨"a", 2⟩, ⟨"b", 3⟩] "a").2.2 ⟨"b", 3⟩
     (by decide)⟩

/-- C4: with an existing destination, the incremental sync loads exactly
the records whose `place_id` is absent from the existing-key set, and
when every record's key is already present it returns the "No new data"
outcome — a terminal success that performs no load — rather than an
error. -/
theorem load_incr_some_def (df : List ChargerRecord) (ids : List String) :
    load_to_bigquery_incremental df (some ids) =
      if df.filter (fun r => r.placeId ∉ ids) = [] then .noNewData
      else .appended (df.filter (fun r => r.placeId ∉ ids)) := rfl

theorem load_incr_none_def (df : List ChargerRecord) :
    load_to_bigquery_incremental df none = .created df := rfl

theorem load_incremental_appends_only_new :
    ∀ (df : List ChargerRecord) (ids : List String),
      (∀ r, r ∈ (load_to_bigquery_incremental df (some ids)).loadedRows ↔
        (r ∈ df ∧ r.placeId ∉ ids)) ∧
      ((∀ r ∈ df, r.placeId ∈ ids) →
        load_to_bigquery_incremental df (some ids) = .noNewData) := by
  intro df ids
  constructor
  · intro r
    rw [load_incr_some_def]
    by_cases hf : df.filter (fun r => r.placeId ∉ ids) = []
    · rw [if_pos hf]
      simp only [SyncOutcome.loadedRows, List.not_mem_nil, false_iff, not_and]
      intro hmem hnot
      have hrf : r ∈ df.filter (fun r => r.placeId ∉ ids) :=
        List.mem_filter.mpr ⟨hmem, by simpa using hnot⟩
      rw [hf] at hrf
      exact absurd hrf (List.not_mem_nil r)
    · rw [if_neg hf]
      simp [SyncOutcome.loadedRows, List.mem_filter]
  · intro hall
    rw [load_incr_some_def]
    have hf : df.filter (fun r => r.placeId ∉ ids) = [] := by
      rw [List.filter_eq_nil_iff]
      intro r hr
      simpa using hall r hr
    rw [if_pos hf]

/-- Concrete instantiation of `load_incremental_appends_only_new`: with
batch `[a, b]` and existing key "a", record `b` is loaded and `a` is
not; with every key existing, the outcome is `noNewData`. -/
theorem load_incremental_appends_only_new_witness :
    ((⟨"b", 2⟩ : ChargerRecord) ∈
      (load_to_bigquery_incremental [⟨"a", 1⟩, ⟨"b", 2⟩] (some ["a"])).loadedRows) ∧
    load_to_bigquery_incremental [⟨"a", 1⟩] (some ["a"]) = .noNewData :=
  ⟨((load_incremental_appends_only_new [⟨"a", 1⟩, ⟨"b", 2⟩] ["a"]).1 ⟨"b", 2⟩).mpr
      ⟨by decide, by decide⟩,
   (load_incremental_appends_only_new [⟨"a", 1⟩] ["a"]).2
      (by intro r hr; fin_cases hr; decide)⟩

/-- C7: deduplication-and-sync is idempotent.  After a first sync (into
an existing table, or creating it), the destination's key set is the old
set extended by the keys of the loaded rows; re-running the sync with the
same batch against that key set loads nothing and reports "No new
data". -/
theorem sync_idempotent :
    ∀ (batch : List ChargerRecord) (ids : List String),
      load_to_bigquery_incremental (drop_duplicates_by_place_id batch)
        (some (ids ++
          ((load_to_bigquery_incremental (drop_duplicates_by_place_id batch)
            (some ids)).loadedRows.map ChargerRecord.placeId))) = .noNewData ∧
      load_to_bigquery_incremental (drop_duplicates_by_place_id batch)
        (some (((load_to_bigquery_incremental (drop_duplicates_by_place_id batch)
            none).loadedRows.map ChargerRecord.placeId))) = .noNewData := by
  intro batch ids
  constructor
  · have hf2 : (drop_duplicates_by_place_id batch).filter
        (fun r => r.placeId ∉ (ids ++
          ((load_to_bigquery_incremental (drop_duplicates_by_place_id batch)
            (some ids)).loadedRows.map ChargerRecord.placeId))) = [] := by
      rw [List.filter_eq_nil_iff]
      intro r hr
      have hmem : r.placeId ∈ ids ++
          ((load_to_bigquery_incremental (drop_duplicates_by_place_id batch)
            (some ids)).loadedRows.map ChargerRecord.placeId) := by
        rw [List.mem_append]
        by_cases hin : r.placeId ∈ ids
        · exact Or.inl hin
        · refine Or.inr ?_
          rw [load_incr_some_def]
          have hrf : r ∈ (drop_duplicates_by_place_id batch).filter
              (fun r => r.placeId ∉ ids) :=
            List.mem_filter.mpr ⟨hr, by simpa using hin⟩
          have hfne : (drop_duplicates_by_place_id batch).filter
              (fun r => r.placeId ∉ ids) ≠ [] := by
            intro h
            rw [h] at hrf
            exact absurd hrf (List.not_mem_nil r)
          rw [if_neg hfne]
          simp only [SyncOutcome.loadedRows, List.mem_map]
          exact ⟨r, hrf, rfl⟩
      intro hcontra
      exact absurd hmem (of_decide_eq_true hcontra)
    rw [load_incr_some_def, if_pos hf2]
  · have hf2 : (drop_duplicates_by_place_id batch).filter
        (fun r => r.placeId ∉
          ((load_to_bigquery_incremental (drop_duplicates_by_place_id batch)
            none).loadedRows.map ChargerRecord.placeId)) = [] := by
      rw [List.filter_eq_nil_iff]
      intro r hr
      have hmem : r.placeId ∈
          ((load_to_bigquery_incremental (drop_duplicates_by_place_id batch)
            none).loadedRows.map ChargerRecord.placeId) := by
        rw [load_incr_none_def]
        simp only [SyncOutcome.loadedRows, List.mem_map]
        exact ⟨r, hr, rfl⟩
      intro hcontra
      exact absurd hmem (of_decide_eq_true hcontra)
    rw [load_incr_some_def, if_pos hf2]

/-- The retry loop issues at most `remaining` HTTP requests. -/
theorem safeGetGo_attempts_le (responses : Nat → FetchResp) :
    ∀ remaining retry, (safeGetGo responses remaining retry).attempts ≤ remaining := by
  intro remaining
  induction remaining with
  | zero => intro retry; simp [safeGetGo]
  | succ n ih =>
    intro retry
    cases hr : responses retry with
    | ok v => simp [safeGetGo, hr]
    | http429 ra =>
      have := ih (retry + 1)
      simp only [safeGetGo, hr]
      omega
    | netErr =>
      have := ih (retry + 1)
      simp only [safeGetGo, hr]
      omega

/-- If every attempt in the window fails, the loop exhausts its budget
and returns `none`. -/
theorem safeGetGo_all_fail (responses : Nat → FetchResp) :
    ∀ remaining retry,
      (∀ i, retry ≤ i → i < retry + remaining → (responses i).isFail = true) →
      (safeGetGo responses remaining retry).result = none ∧
      (safeGetGo responses remaining retry).attempts = remaining := by
  intro remaining
  induction remaining with
  | zero => intro retry _; exact ⟨rfl, rfl⟩
  | succ n ih =>
    intro retry h
    have hfail := h retry (le_refl _) (by omega)
    cases hr : responses retry with
    | ok v => rw [hr] at hfail; simp [FetchResp.isFail] at hfail
    | http429 ra =>
      have hrec := ih (retry + 1) (fun i h1 h2 => h i (by omega) (by omega))
      simp only [safeGetGo, hr]
      exact ⟨hrec.1, by rw [hrec.2]⟩
    | netErr =>
      have hrec := ih (retry + 1) (fun i h1 h2 => h i (by omega) (by omega))
      simp only [safeGetGo, hr]
      exact ⟨hrec.1, by rw [hrec.2]⟩

/-- Counterexample to C5 as stated: on an oracle whose first five
attempts fail and whose sixth attempt would succeed, `safe_get` returns
the skip value `None` — the skip is triggered by the 5th consecutive
failure; a 6th attempt (and hence a "6th consecutive failure") never
happens. -/
theorem safe_get_sixth_failure_counterexample :
    (safe_get (fun n => if n < 5 then .netErr else .ok 42)).result = none ∧
    (safe_get (fun n => if n < 5 then .netErr else .ok 42)).attempts = 5 ∧
    ((fun n => if n < 5 then FetchResp.netErr else .ok 42) 5).isFail = false := by
  refine ⟨rfl, rfl, rfl⟩

/-- C5 (amended): `safe_get` issues at most 5 HTTP attempts in total
(`max_retries = 5`); when the first 5 attempts all fail it returns the
skip value `None` after exactly 5 attempts — the 5th consecutive
failure, not the 6th, exhausts the bound — and the backoff sleeps for an
oracle of plain network failures are the attempt-indexed powers
2^0 … 2^4.  The model is a total function into `Option`, mirroring that
the Python function catches every request exception instead of
propagating it. -/
theorem safe_get_bounded_retry :
    ∀ responses : Nat → FetchResp,
      (safe_get responses).attempts ≤ 5 ∧
      ((∀ i, i < 5 → (responses i).isFail = true) →
        (safe_get responses).result = none ∧ (safe_get responses).attempts = 5) ∧
      ((∀ i, i < 5 → responses i = .netErr) →
        (safe_get responses).waits = [1, 2, 4, 8, 16]) := by
  intro responses
  refine ⟨safeGetGo_attempts_le responses 5 0, fun h => ?_, fun h => ?_⟩
  · exact safeGetGo_all_fail responses 5 0 (fun i h1 h2 => h i (by omega))
  · have h0 := h 0 (by norm_num)
    have h1 := h 1 (by norm_num)
    have h2 := h 2 (by norm_num)
    have h3 := h 3 (by norm_num)
    have h4 := h 4 (by norm_num)
    simp [safe_get, safeGetGo, h0, h1, h2, h3, h4]

/-- Concrete instantiation of `safe_get_bounded_retry` on the
always-failing oracle: result `none` and the exponential wait
schedule. -/
theorem safe_get_bounded_retry_witness :
    (safe_get (fun _ => FetchResp.netErr)).result = none ∧
    (safe_get (fun _ => FetchResp.netErr)).waits = [1, 2, 4, 8, 16] :=
  ⟨((safe_get_bounded_retry (fun _ => .netErr)).2.1 (fun _ _ => rfl)).1,
   (safe_get_bounded_retry (fun _ => .netErr)).2.2 (fun _ _ => rfl)⟩

/-- Folding a step function over a list preserves any invariant the step
preserves. -/
theorem foldl_preserves {α σ : Type} (f : σ → α → σ) (P : σ → Prop)
    (hstep : ∀ s a, P s → P (f s a)) :
    ∀ (l : List α) (s : σ), P s → P (l.foldl f s) := by
  intro l
  induction l with
  | nil => intro s hs; exact hs
  | cons a as ih => intro s hs; exact ih (f s a) (hstep s a hs)

/-- Invariant carried through the sweep for a fixed identifier: it was
fetched at most once so far, and if it was fetched at all it is already
in the seen set (which only holds for identifiers the charger check
accepted). -/
def FetchOnceInv (pid : String) (st : ExtractState) : Prop :=
  st.detailsFetched.count pid ≤ 1 ∧
    (pid ∈ st.seen ∨ st.detailsFetched.count pid = 0)

/-- One nearby-search result preserves `FetchOnceInv` for any identifier
the details oracle accepts as a charger. -/
theorem processNearbyResult_preserves (isCharger : String → Bool) (pid : String)
    (hacc : isCharger pid = true) :
    ∀ (st : ExtractState) (pidOpt : Option String),
      FetchOnceInv pid st → FetchOnceInv pid (processNearbyResult isCharger st pidOpt) := by
  intro st pidOpt hinv
  match pidOpt with
  | none => exact hinv
  | some q =>
    by_cases hskip : q = "" ∨ q ∈ st.seen
    · simpa [processNearbyResult, hskip] using hinv
    · by_cases hq : q = pid
      · subst hq
        have hcount : st.detailsFetched.count q = 0 := by
          rcases hinv.2 with hseen | hzero
          · exact absurd (Or.inr hseen) hskip
          · exact hzero
        simp only [processNearbyResult, hskip, if_false, hacc, if_true]
        refine ⟨?_, Or.inl (List.mem_cons_self _ _)⟩
        rw [List.count_append, hcount]
        simp
      · have hq2 : pid ≠ q := fun h => hq h.symm
        have hcount : (st.detailsFetched ++ [q]).count pid =
            st.detailsFetched.count pid := by
          rw [List.count_append]
          simp [List.count_singleton, hq2]
        by_cases hc : isCharger q
        · simp only [processNearbyResult, hskip, if_false, hc, if_true]
          exact ⟨by rw [hcount]; exact hinv.1,
            by rcases hinv.2 with hseen | hzero
               · exact Or.inl (List.mem_cons_of_mem _ hseen)
               · exact Or.inr (by rw [hcount]; exact hzero)⟩
        · have hred : processNearbyResult isCharger st (some q) =
              { st with detailsFetched := st.detailsFetched ++ [q] } := by
            simp [processNearbyResult, hskip, hc]
          rw [hred]
          exact ⟨by rw [hcount]; exact hinv.1,
            by rcases hinv.2 with hseen | hzero
               · exact Or.inl hseen
               · exact Or.inr (by rw [hcount]; exact hzero)⟩

/-- Counterexample to C6 as stated: with a details oracle that rejects
every candidate, an identifier returned by two different anchors is
passed to the details fetch twice — rejected identifiers are never added
to `seen`, so re-encountering them triggers another fetch. -/
theorem details_fetched_once_counterexample :
    ¬ ((run_extraction (fun _ => false)
        [[some "x"], [some "x"]]).detailsFetched.count "x" ≤ 1) := by decide

/-- C6 (amended): an identifier is protected from re-fetching only once
it has been ACCEPTED by the charger check (only then is it added to
`seen`); hence every identifier the details oracle classifies as a
charger is fetched at most once per run, while rejected identifiers may
be fetched again at later anchors. -/
theorem accepted_id_fetched_once :
    ∀ (isCharger : String → Bool) (anchors : List (List (Option String)))
      (pid : String), isCharger pid = true →
      (run_extraction isCharger anchors).detailsFetched.count pid ≤ 1 := by
  intro isCharger anchors pid hacc
  have hinv : FetchOnceInv pid (run_extraction isCharger anchors) := by
    unfold run_extraction
    refine foldl_preserves _ (FetchOnceInv pid) ?_ anchors ⟨[], [], []⟩ ?_
    · intro st results hst
      exact foldl_preserves _ (FetchOnceInv pid)
        (processNearbyResult_preserves isCharger pid hacc) results st hst
    · exact ⟨by simp, Or.inr (by simp)⟩
  exact hinv.1

/-- Concrete instantiation of `accepted_id_fetched_once`: with an
all-accepting oracle the identifier "x", returned by two anchors, is
fetched exactly once. -/
theorem accepted_id_fetched_once_witness :
    (run_extraction (fun _ => true)
      [[some "x"], [some "x"]]).detailsFetched.count "x" ≤ 1 :=
  accepted_id_fetched_once (fun _ => true) [[some "x"], [some "x"]] "x" rfl

/-- A nonempty tier list always has a defined maximum charging type. -/
theorem max_charging_type_isSome_of_ne_nil (ts : List Tier) (h : ts ≠ []) :
    (max_charging_type ts).isSome = true := by
  obtain ⟨t, ts2, rfl⟩ := List.exists_cons_of_ne_nil h
  cases t <;> unfold max_charging_type <;> split_ifs <;> simp_all

/-- C9: in the catalog variants, after the
`dropna(subset=[Number_of_Connectors, Min_Power_kW, Max_Power_kW,
Latitude, Longitude])` every persisted row has all five fields defined
and a defined (non-Unknown) maximum charging type; and every POI whose
connection list yields no known power reading produces an incomplete row
that is dropped from the output. -/
theorem df_final_rows_complete :
    ∀ (pois : List CatalogPOI) (r : CatalogRow),
      (r ∈ df_final pois →
        r.numberOfConnectors.isSome = true ∧ r.minPowerKW.isSome = true ∧
        r.maxPowerKW.isSome = true ∧ r.latitude.isSome = true ∧
        r.longitude.isSome = true ∧ r.maxChargingType.isSome = true) ∧
      (∀ poi : CatalogPOI,
        (∀ conns, poi.connections = some conns → knownPowers conns = []) →
        mkCatalogRow poi ∉ df_final pois) := by
  intro pois r
  constructor
  · intro hmem
    unfold df_final at hmem
    have hcomp : catalogRowComplete r = true := List.of_mem_filter hmem
    have hrow : ∃ poi ∈ pois, mkCatalogRow poi = r := by
      have := List.mem_filter.mp hmem
      simpa using List.mem_map.mp this.1
    unfold catalogRowComplete at hcomp
    simp only [Bool.and_eq_true] at hcomp
    obtain ⟨⟨⟨⟨h1, h2⟩, h3⟩, h4⟩, h5⟩ := hcomp
    refine ⟨h1, h2, h3, h4, h5, ?_⟩
    obtain ⟨poi, _, hpoi⟩ := hrow
    rcases hconn : poi.connections with _ | conns
    · rw [← hpoi] at h2
      simp [mkCatalogRow, extract_connections, hconn] at h2
    · have hne : knownPowers conns ≠ [] := by
        intro hnil
        rw [← hpoi] at h2
        simp only [mkCatalogRow, extract_connections, hconn, Option.map_some'] at h2
        rw [show (extract_connections_list conns).minPowerKW =
            (knownPowers conns).min? from rfl, hnil] at h2
        simp at h2
      rw [← hpoi]
      simp only [mkCatalogRow, extract_connections, hconn, Option.map_some']
      rw [show (extract_connections_list conns).maxChargingType =
          max_charging_type (if knownPowers conns ≠ [] then
            assign_charging_type (knownPowers conns) else []) from rfl]
      rw [if_pos hne]
      refine max_charging_type_isSome_of_ne_nil _ ?_
      unfold assign_charging_type
      simpa using hne
  · intro poi hnopower hmem
    unfold df_final at hmem
    have hcomp : catalogRowComplete (mkCatalogRow poi) = true :=
      List.of_mem_filter hmem
    rcases hconn : poi.connections with _ | conns
    · simp [catalogRowComplete, mkCatalogRow, extract_connections, hconn] at hcomp
    · have hnil := hnopower conns hconn
      simp only [catalogRowComplete, mkCatalogRow, extract_connections, hconn,
        Option.map_some', Bool.and_eq_true] at hcomp
      have h2 := hcomp.1.1.1.2
      rw [show (extract_connections_list conns).minPowerKW =
          (knownPowers conns).min? from rfl, hnil] at h2
      simp at h2

/-- Concrete instantiation of `df_final_rows_complete`: a POI with one
50 kW connector survives with all fields defined, while a POI whose only
connector has no power reading is dropped. -/
theorem df_final_rows_complete_witness :
    (mkCatalogRow ⟨some 51, some 0, some [⟨some 50, none, none⟩]⟩).maxChargingType.isSome
        = true ∧
    mkCatalogRow ⟨some 51, some 0, some [⟨none, none, none⟩]⟩ ∉
      df_final [⟨some 51, some 0, some [⟨some 50, none, none⟩]⟩,
        ⟨some 51, some 0, some [⟨none, none, none⟩]⟩] :=
  ⟨((df_final_rows_complete [⟨some 51, some 0, some [⟨some 50, none, none⟩]⟩]
      (mkCatalogRow ⟨some 51, some 0, some [⟨some 50, none, none⟩]⟩)).1
      (by decide)).2.2.2.2.2,
   (df_final_rows_complete [⟨some 51, some 0, some [⟨some 50, none, none⟩]⟩,
        ⟨some 51, some 0, some [⟨none, none, none⟩]⟩]
      (mkCatalogRow ⟨some 51, some 0, some [⟨none, none, none⟩]⟩)).2
      ⟨some 51, some 0, some [⟨none, none, none⟩]⟩
      (by intro conns h; cases h; rfl)⟩

/-- C10: in the Option 01 reconciler `fetch_ocm_details`, a connector
whose `PowerKW` is falsy under Python truthiness — absent OR equal to
zero — is rendered as "Power Unknown", and consequently the known-power
list recovered downstream by `convert_power` (which keeps only entries
containing "kW") is exactly the non-null, non-zero power readings. -/
theorem zero_power_rendered_unknown :
    (∀ p : Option ℚ, pyTruthy p = false → renderPowerEntry p = .unknown) ∧
    renderPowerEntry (some 0) = .unknown ∧
    (∀ conns : List Connector,
      convert_power (ocm_power_values conns) =
        (conns.filterMap (·.powerKW)).filter (fun v => v ≠ 0)) := by
  refine ⟨?_, by decide, ?_⟩
  · intro p hp
    match p with
    | none => rfl
    | some v =>
      simp only [pyTruthy, decide_eq_false_iff_not, not_not] at hp
      simp [renderPowerEntry, hp]
  · intro conns
    induction conns with
    | nil => rfl
    | cons c cs ih =>
      rcases hp : c.powerKW with _ | v
      · simpa [ocm_power_values, convert_power, renderPowerEntry, hp] using ih
      · by_cases hz : v = 0
        · subst hz
          simpa [ocm_power_values, convert_power, renderPowerEntry, hp] using ih
        · simpa [ocm_power_values, convert_power, renderPowerEntry, hp, hz] using ih

/-- Concrete instantiation of `zero_power_rendered_unknown`: a
zero-power connector is rendered "Power Unknown". -/
theorem zero_power_rendered_unknown_witness :
    renderPowerEntry (some 0) = .unknown :=
  zero_power_rendered_unknown.1 (some 0) (by decide)

end EVCharging
